import Mathlib

/-!
Shallow embedding of the TOWAF site-generation pipeline
(`content/content.py` and `datasets/datasets.py`) and proofs about it.

Python scalar values are modelled by `Value`; Python dicts by association
lists (`Record`); the filesystem by the tree `FsNode`; exceptions by
`Except String`.  Each Lean definition is a direct translation of the
Python function of the same name.
-/

namespace Towaf

/-- A Python scalar value: `None`, `str`, `int` or `bool`. -/
inductive Value where
  | none
  | str (s : String)
  | int (n : Int)
  | bool (b : Bool)
deriving DecidableEq, Repr

/-- Decimal digits of a natural number (fuel-driven, fuel ≥ number of digits). -/
def natDigitsAux : Nat → Nat → List Char
  | 0, _ => []
  | Nat.succ fuel, n =>
    if n = 0 then [] else natDigitsAux fuel (n / 10) ++ [Char.ofNat (48 + n % 10)]

/-- Decimal rendering of a natural number. -/
def natStr (n : Nat) : String :=
  if n = 0 then "0" else String.mk (natDigitsAux (n + 1) n)

/-- Decimal rendering of an integer, as Python `str` renders `int`. -/
def intStr : Int → String
  | Int.ofNat n => natStr n
  | Int.negSucc n => "-" ++ natStr (n + 1)

/-- Python `str(value)`. -/
def pyStr : Value → String
  | Value.none => "None"
  | Value.str s => s
  | Value.int n => intStr n
  | Value.bool true => "True"
  | Value.bool false => "False"

/-- Python truthiness of a scalar value. -/
def truthy : Value → Bool
  | Value.none => false
  | Value.str s => s ≠ ""
  | Value.int n => n ≠ 0
  | Value.bool b => b

/-- Python `a or b` on scalar values (returns `a` when truthy, else `b`). -/
def pyOr (a b : Value) : Value := if truthy a then a else b

/-- Python `str.lower()` (per-character lowering). -/
def pyLowerS (s : String) : String := String.mk (s.data.map Char.toLower)

/-- Python `value.lower()`: only defined on `str`, raises `AttributeError` otherwise. -/
def pyLowerE : Value → Except String String
  | Value.str s => Except.ok (pyLowerS s)
  | _ => Except.error "AttributeError"

/-- Python `str.strip()` with no argument: trim whitespace from both ends. -/
def pyStrip (s : String) : String :=
  String.mk (((s.data.dropWhile Char.isWhitespace).reverse.dropWhile Char.isWhitespace).reverse)

/-- Python `str.endswith(suffix)`. -/
def pyEndsWith (s suffix : String) : Bool := suffix.data.isSuffixOf s.data

/-- Python `s[:-n]` for `n ≤ len(s)`: drop the last `n` characters. -/
def pyDropRight (s : String) (n : Nat) : String :=
  String.mk (s.data.take (s.data.length - n))

/-- Replace every non-overlapping occurrence of `pat` (nonempty) in the
character list, scanning left to right; `fuel` bounds the recursion and is
chosen ≥ the list length. -/
def replaceCharsAux (pat rep : List Char) : Nat → List Char → List Char
  | 0, s => s
  | Nat.succ fuel, s =>
    match s with
    | [] => []
    | c :: rest =>
      if pat.isPrefixOf s then rep ++ replaceCharsAux pat rep fuel (s.drop pat.length)
      else c :: replaceCharsAux pat rep fuel rest

/-- Python `s.replace(pat, rep)` for the nonempty literal patterns used by the
templates (for an empty pattern we return `s`; the pipeline never passes one). -/
def pyReplace (s pat rep : String) : String :=
  if pat.data.isEmpty then s
  else String.mk (replaceCharsAux pat.data rep.data s.data.length s.data)

/-- Python `<=` on strings, i.e. lexicographic comparison of code points. -/
def charListLe : List Char → List Char → Bool
  | [], _ => true
  | _ :: _, [] => false
  | x :: xs, y :: ys =>
    if x.toNat < y.toNat then true
    else if y.toNat < x.toNat then false
    else charListLe xs ys

/-- Python `<=` on strings. -/
def strLe (a b : String) : Bool := charListLe a.data b.data

/-- Characters kept by the slug regular expression `[a-z0-9\-.]`. -/
def allowedChar (c : Char) : Bool :=
  ('a' ≤ c && c ≤ 'z') || ('0' ≤ c && c ≤ '9') || c = '-' || c = '.'

/-- Characters stripped by `strip(".-")`. -/
def stripChar (c : Char) : Bool := c = '.' || c = '-'

/-- Python `text.strip(".-")`: remove leading and trailing `.`/`-`
(right strip then left strip; the two commute). -/
def pyStripPunct (l : List Char) : List Char :=
  ((l.reverse.dropWhile stripChar).reverse).dropWhile stripChar

/-- `" "`/`"_"` to `"-"` replacement used by `slugify`. -/
def slugRep (c : Char) : Char := if c = ' ' || c = '_' then '-' else c

/-- The character-level core of `slugify`: lowercase, replace spaces and
underscores by hyphens, drop characters outside `[a-z0-9\-.]`, strip
leading/trailing `.`/`-`. -/
def slugCore (l : List Char) : List Char :=
  pyStripPunct (((l.map Char.toLower).map slugRep).filter allowedChar)

namespace Content

/-- `content.py` `slugify`: convert a value into a file-friendly slug,
returning `"unknown"` for `None` input or when sanitisation leaves nothing. -/
def slugify (v : Value) : String :=
  match v with
  | Value.none => "unknown"
  | other =>
    let l := slugCore (pyStr other).data
    if l.isEmpty then "unknown" else String.mk l

end Content

namespace Datasets

/-- `datasets.py` `slugify`: textually identical to the `content.py` version. -/
def slugify (v : Value) : String :=
  match v with
  | Value.none => "unknown"
  | other =>
    let l := slugCore (pyStr other).data
    if l.isEmpty then "unknown" else String.mk l

end Datasets

-- ------------------------------------------------------------------
-- Records (Python dicts) and raw JSON items
-- ------------------------------------------------------------------

/-- A Python dict with scalar values, as an ordered association list
(insertion order, unique keys). -/
abbrev Record := List (String × Value)

/-- Python `d.get(k)` (returns `None`, here `Option.none`, when absent). -/
def rget : Record → String → Option Value
  | [], _ => Option.none
  | (k', v) :: rest, k => if k' = k then some v else rget rest k

/-- Python `d.get(k, default)`. -/
def rgetD (r : Record) (k : String) (d : Value) : Value := (rget r k).getD d

/-- Python `d[k] = v` (update in place, or append a new key). -/
def rset : Record → String → Value → Record
  | [], k, v => [(k, v)]
  | (k', v') :: rest, k, v =>
    if k' = k then (k', v) :: rest else (k', v') :: rset rest k v

/-- Python `{**base, **upd}`-style update: apply every binding of `upd`
to `base`, in order. -/
def rsetAll (base upd : Record) : Record :=
  upd.foldl (fun acc kv => rset acc kv.1 kv.2) base

/-- One item of the decoded `content.json` list: a dict or a stray scalar. -/
inductive PyObj where
  | dict (entry : Record)
  | scalar (v : Value)
deriving DecidableEq, Repr

-- ------------------------------------------------------------------
-- Python `list.sort(key=...)`: a stable sort after computing every key
-- ------------------------------------------------------------------

/-- Stable insertion of `x` after all existing elements `y` with `le y x`. -/
def insSorted {α : Type} (le : α → α → Bool) (x : α) : List α → List α
  | [] => [x]
  | y :: ys => if le y x then y :: insSorted le x ys else x :: y :: ys

/-- Stable insertion sort; agrees with Python's stable `list.sort` for any
total preorder `le`. -/
def pySortBy {α : Type} (le : α → α → Bool) (l : List α) : List α :=
  l.foldl (fun acc x => insSorted le x acc) []

/-- Evaluate a fallible function over a list left to right, stopping at the
first raised exception (models a Python loop or the key pass of `sort`). -/
def mapExcept {α β : Type} (f : α → Except String β) : List α → Except String (List β)
  | [] => Except.ok []
  | x :: xs => do
    let y ← f x
    let ys ← mapExcept f xs
    Except.ok (y :: ys)

/-- Python `l.sort(key=keyf)`: compute every key (first raised exception
propagates), then sort the (key, element) pairs stably by key. -/
def pySortByKeyE (keyf : Record → Except String String) (l : List Record) :
    Except String (List Record) := do
  let ks ← mapExcept keyf l
  Except.ok ((pySortBy (fun a b => strLe a.1 b.1) (ks.zip l)).map (fun p => p.2))

namespace Content

/-- `content.py` `normalize_value`: stringified, whitespace-trimmed value,
or `"unknown"` when the value is `None` or trims to the empty string. -/
def normalize_value (v : Value) : String :=
  if v = Value.none then "unknown"
  else if pyStrip (pyStr v) = "" then "unknown"
  else pyStrip (pyStr v)

/-- The per-record body of `collect_entries`: build
`{"name": normalize_value(...), "topic": ..., "category": ..., **entry}`
(the `**entry` spread re-applies every original binding last), then replace
a literal `"unknown"` in the three essential fields by the field sentinel. -/
def processEntry (entry : Record) : Record :=
  let p : Record :=
    [("name", Value.str (normalize_value (rgetD entry "name" Value.none))),
     ("topic", Value.str (normalize_value (rgetD entry "topic" Value.none))),
     ("category", Value.str (normalize_value (rgetD entry "category" Value.none)))]
  let p := rsetAll p entry
  let p := if rget p "name" = some (Value.str "unknown")
           then rset p "name" (Value.str "unknown-name") else p
  let p := if rget p "topic" = some (Value.str "unknown")
           then rset p "topic" (Value.str "unknown-topic") else p
  let p := if rget p "category" = some (Value.str "unknown")
           then rset p "category" (Value.str "unknown-category") else p
  p

/-- Sort key of `collect_entries`: `e.get("name", "unknown-name").lower()`;
raises `AttributeError` when the stored name is not a string. -/
def sortKeyE (e : Record) : Except String String :=
  match rget e "name" with
  | Option.none => Except.ok (pyLowerS "unknown-name")
  | some (Value.str s) => Except.ok (pyLowerS s)
  | some _ => Except.error "AttributeError"

/-- `content.py` `collect_entries`: skip non-dict items with a warning,
normalise each dict, then sort by lower-cased name.  An exception raised by
the sort key pass propagates (`Except.error`). -/
def collect_entries (db : List PyObj) : Except String (List Record) :=
  let processed := db.filterMap (fun it =>
    match it with
    | PyObj.dict e => some (processEntry e)
    | PyObj.scalar _ => Option.none)
  pySortByKeyE sortKeyE processed

end Content

-- ------------------------------------------------------------------
-- Filesystem model
-- ------------------------------------------------------------------

/-- A filesystem tree: a file with string content, or a directory with a
named-children list.  Paths are segment lists relative to the managed
output base directory. -/
inductive FsNode where
  | file (content : String)
  | dir (children : List (String × FsNode))
deriving Repr

/-- Look up a directory entry by name. -/
def getChild : List (String × FsNode) → String → Option FsNode
  | [], _ => Option.none
  | (n, x) :: rest, name => if n = name then some x else getChild rest name

/-- Replace (or append) a directory entry. -/
def setChild : List (String × FsNode) → String → FsNode → List (String × FsNode)
  | [], name, x => [(name, x)]
  | (n, y) :: rest, name, x =>
    if n = name then (n, x) :: rest else (n, y) :: setChild rest name x

/-- Resolve a path to the node it denotes, if any. -/
def lookupNode : FsNode → List String → Option FsNode
  | node, [] => some node
  | FsNode.file _, _ :: _ => Option.none
  | FsNode.dir cs, d :: rest =>
    match getChild cs d with
    | some child => lookupNode child rest
    | Option.none => Option.none

/-- `os.path.isdir` for a path of the model. -/
def isDirAt (fs : FsNode) (p : List String) : Bool :=
  match lookupNode fs p with
  | some (FsNode.dir _) => true
  | _ => false

/-- Write a file at a path, creating missing parent directories
(`os.makedirs(..., exist_ok=True)` before `open(..., "w")`).  Returns
`Option.none` when the OS would raise: a path segment resolves to an
existing file, or the final segment is an existing directory. -/
def setFileAt : FsNode → List String → String → Option FsNode
  | _, [], _ => Option.none
  | FsNode.file _, _ :: _, _ => Option.none
  | FsNode.dir cs, d :: rest, c =>
    match rest with
    | [] =>
      match getChild cs d with
      | some (FsNode.dir _) => Option.none
      | _ => some (FsNode.dir (setChild cs d (FsNode.file c)))
    | r :: rs =>
      match getChild cs d with
      | some (FsNode.file _) => Option.none
      | some (FsNode.dir ccs) =>
        (setFileAt (FsNode.dir ccs) (r :: rs) c).map (fun x => FsNode.dir (setChild cs d x))
      | Option.none =>
        (setFileAt (FsNode.dir []) (r :: rs) c).map (fun x => FsNode.dir (setChild cs d x))

/-- `os.makedirs(path, exist_ok=True)`: create the directory chain, failing
(`Option.none`) when a segment resolves to an existing file. -/
def mkdirsAt : FsNode → List String → Option FsNode
  | FsNode.dir cs, [] => some (FsNode.dir cs)
  | FsNode.file _, _ => Option.none
  | FsNode.dir cs, d :: rest =>
    match getChild cs d with
    | some child => (mkdirsAt child rest).map (fun x => FsNode.dir (setChild cs d x))
    | Option.none => (mkdirsAt (FsNode.dir []) rest).map (fun x => FsNode.dir (setChild cs d x))

/-- Apply a transformation to the children of the directory at a path;
no-op when the path does not denote a directory. -/
def updateDirAt : FsNode → List String →
    (List (String × FsNode) → List (String × FsNode)) → FsNode
  | FsNode.dir cs, [], g => FsNode.dir (g cs)
  | FsNode.dir cs, d :: rest, g =>
    match getChild cs d with
    | some child => FsNode.dir (setChild cs d (updateDirAt child rest g))
    | Option.none => FsNode.dir cs
  | n, _, _ => n

/-- Model of `hashlib.sha256(...).hexdigest()`: a deterministic digest of
the content string (the proofs only use that it is a function of the
content). -/
def shaModel (s : String) : Nat :=
  s.data.foldl (fun h c => (h * 131 + c.toNat) % (2 ^ 64)) 7

/-- Write/delete events, used to express the order of filesystem effects. -/
inductive Event where
  | write (p : List String)
  | delete (p : List String)
deriving DecidableEq, Repr

/-- Event classifiers. -/
def isWriteEv : Event → Bool
  | Event.write _ => true
  | Event.delete _ => false

def isDeleteEv : Event → Bool
  | Event.delete _ => true
  | Event.write _ => false

namespace Content

/-- `content.py` `write_file`: refuse `None` content; if the path holds a
file whose digest equals the new content's digest, skip the write and
return `false`; otherwise create parent directories and write, returning
`true` (write failures are caught and reported as `false`, leaving the
tree unchanged). -/
def write_file (fs : FsNode) (path : List String) (content : Option String) :
    FsNode × Bool :=
  match content with
  | Option.none => (fs, false)
  | some c =>
    match lookupNode fs path with
    | some (FsNode.file existing) =>
      if shaModel existing = shaModel c then (fs, false)
      else
        match setFileAt fs path c with
        | some fs' => (fs', true)
        | Option.none => (fs, false)
    | some (FsNode.dir _) => (fs, false)
    | Option.none =>
      match setFileAt fs path c with
      | some fs' => (fs', true)
      | Option.none => (fs, false)

end Content

namespace Datasets

/-- `datasets.py` `write_file_if_different`: same skip-on-equal-digest
logic as `content.py`'s `write_file` (the two differ only in logging and
in which read exceptions they name). -/
def write_file_if_different (fs : FsNode) (path : List String)
    (content : Option String) : FsNode × Bool :=
  match content with
  | Option.none => (fs, false)
  | some c =>
    match lookupNode fs path with
    | some (FsNode.file existing) =>
      if shaModel existing = shaModel c then (fs, false)
      else
        match setFileAt fs path c with
        | some fs' => (fs', true)
        | Option.none => (fs, false)
    | some (FsNode.dir _) => (fs, false)
    | Option.none =>
      match setFileAt fs path c with
      | some fs' => (fs', true)
      | Option.none => (fs, false)

end Datasets

-- ------------------------------------------------------------------
-- File-level cleanup (orphaned .html / .json files)
-- ------------------------------------------------------------------

namespace Content

/-- The deletion test of `cleanup_orphan_html_files`: an entry is removed
iff it is a file, its name ends with `".html"` and the name is not in the
expected set (`os.remove` on a subdirectory raises and is caught, so
non-files always survive). -/
def isOrphanHtmlChild (expected : List String) (p : String × FsNode) : Bool :=
  (match p.2 with
   | FsNode.file _ => true
   | FsNode.dir _ => false)
  && pyEndsWith p.1 ".html" && !(expected.contains p.1)

/-- Children of a directory after `cleanup_orphan_html_files` has scanned it. -/
def cleanupOrphanHtmlChildren (cs : List (String × FsNode)) (expected : List String) :
    List (String × FsNode) :=
  cs.filter (fun p => !(isOrphanHtmlChild expected p))

/-- `content.py` `cleanup_orphan_html_files` on the tree: delete every
orphaned `.html` file directly inside `directory`; skip silently when the
path is not a directory.  Also returns the delete events in scan order. -/
def cleanup_orphan_html_files (fs : FsNode) (directory : List String)
    (expected : List String) : FsNode × List Event :=
  match lookupNode fs directory with
  | some (FsNode.dir cs) =>
    (updateDirAt fs directory (fun l => cleanupOrphanHtmlChildren l expected),
     (cs.filter (isOrphanHtmlChild expected)).map (fun p => Event.delete (directory ++ [p.1])))
  | _ => (fs, [])

/-- `content.py` `cleanup_html_content_files`: run the per-directory file
cleanup for every directory recorded in the expected-files mapping. -/
def cleanup_html_content_files (fs : FsNode)
    (expectedByDir : List (List String × List String)) : FsNode × List Event :=
  expectedByDir.foldl
    (fun st e =>
      let r := cleanup_orphan_html_files st.1 e.1 e.2
      (r.1, st.2 ++ r.2))
    (fs, [])

end Content

namespace Datasets

/-- The deletion test of `cleanup_orphan_files`: a file whose name ends in
`".json"` and is not expected. -/
def isOrphanJsonChild (expected : List String) (p : String × FsNode) : Bool :=
  (match p.2 with
   | FsNode.file _ => true
   | FsNode.dir _ => false)
  && pyEndsWith p.1 ".json" && !(expected.contains p.1)

/-- Children of a directory after `cleanup_orphan_files` has scanned it. -/
def cleanupOrphanJsonChildren (cs : List (String × FsNode)) (expected : List String) :
    List (String × FsNode) :=
  cs.filter (fun p => !(isOrphanJsonChild expected p))

end Datasets

-- ------------------------------------------------------------------
-- Artifact renderers
-- ------------------------------------------------------------------

/-- Run the chained `content.replace(...)` statements of a `try` block.
Each step is one substitution; `faults.headD false` tells whether that
step raises (Python can raise inside any statement; the real runs use an
all-`false` list).  The first raising step aborts the block. -/
def runSteps : List Bool → List (String × String) → String → Except String String
  | _, [], c => Except.ok c
  | faults, st :: rest, c =>
    if faults.headD false then Except.error "substitution error"
    else runSteps faults.tail rest (pyReplace c st.1 st.2)

/-- Whether some step of the block raises. -/
def anyFaultIn : List Bool → List (String × String) → Bool
  | _, [] => false
  | faults, _ :: rest => faults.headD false || anyFaultIn faults.tail rest

/-- The fully substituted content (every step applied, none raising). -/
def applySteps (steps : List (String × String)) (c : String) : String :=
  steps.foldl (fun acc st => pyReplace acc st.1 st.2) c

namespace Content

/-- The six substitutions of `generate_media_html`, with the display
values (`entry.get(k, default) or default`, stringified) and the slug
values computed exactly as in the source. -/
def generate_media_html_steps (entry : Record) : List (String × String) :=
  let name_display := pyOr (rgetD entry "name" (Value.str "Unknown Name"))
    (Value.str "Unknown Name")
  let topic_display := pyOr (rgetD entry "topic" (Value.str "Unknown Topic"))
    (Value.str "Unknown Topic")
  let category_display := pyOr (rgetD entry "category" (Value.str "Unknown Category"))
    (Value.str "Unknown Category")
  let topic_slug_val := slugify (rgetD entry "topic" Value.none)
  let category_slug_val := slugify (rgetD entry "category" Value.none)
  let name_slug_val := slugify (rgetD entry "name" Value.none)
  [("NAME_ENTRY", pyStr name_display),
   ("TOPIC_ENTRY", pyStr topic_display),
   ("CATEGORY_ENTRY", pyStr category_display),
   ("TOPIC-SLUGIFIED", topic_slug_val),
   ("CATEGORY-SLUGIFIED", category_slug_val),
   ("NAME-SLUGIFIED", name_slug_val)]

/-- `content.py` `generate_media_html` with an explicit fault channel: the
`try` block of chained replacements, and the `except` handler returning
the original template on any raised substitution step. -/
def generate_media_html_f (faults : List Bool) (entry : Record) (template : String) :
    String :=
  match runSteps faults (generate_media_html_steps entry) template with
  | Except.ok c => c
  | Except.error _ => template

/-- `generate_media_html` as executed (no step raises). -/
def generate_media_html (entry : Record) (template : String) : String :=
  generate_media_html_f [] entry template

/-- The four substitutions of `generate_category_html`. -/
def generate_category_html_steps (topic_original category_original : Value) :
    List (String × String) :=
  let topic_display := if truthy topic_original then pyStr topic_original
    else "Unknown Topic"
  let category_display := if truthy category_original then pyStr category_original
    else "Unknown Category"
  [("TOPIC_ENTRY", topic_display),
   ("CATEGORY_ENTRY", category_display),
   ("TOPIC-SLUGIFIED", slugify topic_original),
   ("CATEGORY-SLUGIFIED", slugify category_original)]

/-- `content.py` `generate_category_html` with an explicit fault channel
(the `entries` argument is accepted and unused, as in the source). -/
def generate_category_html_f (faults : List Bool) (topic_original category_original : Value)
    (entries : List Record) (category_template : String) : String :=
  match runSteps faults (generate_category_html_steps topic_original category_original)
      category_template with
  | Except.ok c => c
  | Except.error _ => category_template

/-- `generate_category_html` as executed (no step raises). -/
def generate_category_html (topic_original category_original : Value)
    (entries : List Record) (category_template : String) : String :=
  generate_category_html_f [] topic_original category_original entries category_template

/-- The two substitutions of `generate_topic_html`. -/
def generate_topic_html_steps (topic_original : Value) : List (String × String) :=
  let topic_display := if truthy topic_original then pyStr topic_original
    else "Unknown Topic"
  [("TOPIC_ENTRY", topic_display),
   ("TOPIC-SLUGIFIED", slugify topic_original)]

/-- `content.py` `generate_topic_html` with an explicit fault channel (the
`categories` argument is accepted and unused by the substitutions, as in
the source). -/
def generate_topic_html_f (faults : List Bool) (topic_original : Value)
    (categories : List Value) (topic_template : String) : String :=
  match runSteps faults (generate_topic_html_steps topic_original) topic_template with
  | Except.ok c => c
  | Except.error _ => topic_template

/-- `generate_topic_html` as executed (no step raises). -/
def generate_topic_html (topic_original : Value) (categories : List Value)
    (topic_template : String) : String :=
  generate_topic_html_f [] topic_original categories topic_template

end Content

-- ------------------------------------------------------------------
-- Hierarchy builder (dict-of-dict-of-list with setdefault/append)
-- ------------------------------------------------------------------

/-- `d.setdefault(c, []).append(e)` on an ordered association list. -/
def addCat : List (Value × List Record) → Value → Record → List (Value × List Record)
  | [], c, e => [(c, [e])]
  | (c', l) :: rest, c, e =>
    if c' = c then (c', l ++ [e]) :: rest else (c', l) :: addCat rest c e

/-- `topics.setdefault(t, {}).setdefault(c, []).append(e)`. -/
def addTopic : List (Value × List (Value × List Record)) → Value → Value → Record →
    List (Value × List (Value × List Record))
  | [], t, c, e => [(t, addCat [] c e)]
  | (t', cs) :: rest, t, c, e =>
    if t' = t then (t', addCat cs c e) :: rest else (t', cs) :: addTopic rest t c e

/-- Category map of a topic (empty when the topic is absent). -/
def tGet : List (Value × List (Value × List Record)) → Value →
    List (Value × List Record)
  | [], _ => []
  | (t', cs) :: rest, t => if t' = t then cs else tGet rest t

/-- Entry list of a category (empty when absent). -/
def cGet : List (Value × List Record) → Value → List Record
  | [], _ => []
  | (c', l) :: rest, c => if c' = c then l else cGet rest c

/-- The `(topic, category)` leaf list of a grouped structure. -/
def gGet (g : List (Value × List (Value × List Record))) (t c : Value) : List Record :=
  cGet (tGet g t) c

namespace Content

/-- `entry.get("topic")` as used by the grouping loop of `generate_pages`. -/
def topicOf (e : Record) : Value := rgetD e "topic" Value.none

/-- `entry.get("category")` as used by the grouping loop. -/
def catOf (e : Record) : Value := rgetD e "category" Value.none

/-- The grouping loop of `generate_pages`: `topics_data` keyed by original
topic then original category, appending entries in order. -/
def groupEntries (entries : List Record) : List (Value × List (Value × List Record)) :=
  entries.foldl (fun acc e => addTopic acc (topicOf e) (catOf e) e) []

end Content

-- ------------------------------------------------------------------
-- Expected-files mapping (directory → set of expected file names)
-- ------------------------------------------------------------------

/-- `expected_files`: directory path → names registered for it (list
membership models set membership). -/
abbrev Expected := List (List String × List String)

/-- `expected_files.setdefault(d, set()).add(f)`. -/
def expAdd : Expected → List String → String → Expected
  | [], d, f => [(d, [f])]
  | (d', fsn) :: rest, d, f =>
    if d' = d then (d', fsn ++ [f]) :: rest else (d', fsn) :: expAdd rest d f

/-- Names registered for a directory (empty when the directory is absent). -/
def expGet : Expected → List String → List String
  | [], _ => []
  | (d', fsn) :: rest, d => if d' = d then fsn else expGet rest d

-- ------------------------------------------------------------------
-- generate_pages
-- ------------------------------------------------------------------

namespace Content

/-- State threaded through `generate_pages`: the tree, the expected-files
mapping, the event log, and the `(directory, filename)` of every
`write_file` call made so far. -/
structure GenState where
  fs : FsNode
  expected : Expected
  trace : List Event
  writes : List (List String × String)

/-- One `write_file(path, content)` call immediately followed by
`expected_files.setdefault(dir, set()).add(filename)`, as in the source. -/
def writeAndRegister (s : GenState) (d : List String) (fname : String)
    (content : String) : GenState :=
  let r := write_file s.fs (d ++ [fname]) (some content)
  { fs := r.1,
    expected := expAdd s.expected d fname,
    trace := s.trace ++ (if r.2 then [Event.write (d ++ [fname])] else []),
    writes := s.writes ++ [(d, fname)] }

/-- The inner entry loop body of `generate_pages`. -/
def genEntryStep (mediaT : String) (category_dir : List String) (s : GenState)
    (entry : Record) : GenState :=
  let name_slug := slugify (rgetD entry "name" (Value.str "unknown-name"))
  let media_filename := name_slug ++ ".html"
  let media_html := generate_media_html entry mediaT
  writeAndRegister s category_dir media_filename media_html

/-- The category loop body of `generate_pages` (`os.makedirs` may raise,
modelled by `Option.none`). -/
def genCatStep (mediaT catT : String) (topic_original : Value)
    (topic_dir : List String) (s : GenState) (cat : Value × List Record) :
    Option GenState := do
  let category_slug := slugify cat.1
  let category_dir := topic_dir ++ [category_slug]
  let fs1 ← mkdirsAt s.fs category_dir
  let s1 : GenState := { s with fs := fs1 }
  let category_summary_filename := category_slug ++ ".html"
  let category_html := generate_category_html topic_original cat.1 cat.2 catT
  let s2 := writeAndRegister s1 topic_dir category_summary_filename category_html
  Option.some (cat.2.foldl (genEntryStep mediaT category_dir) s2)

/-- The topic loop body of `generate_pages`. -/
def genTopicStep (mediaT catT topicT : String) (s : GenState)
    (tp : Value × List (Value × List Record)) : Option GenState := do
  let topic_slug := slugify tp.1
  let topic_dir := [topic_slug]
  let fs1 ← mkdirsAt s.fs topic_dir
  let s1 : GenState := { s with fs := fs1 }
  let topic_page_filename := topic_slug ++ ".html"
  let topic_html := generate_topic_html tp.1 (tp.2.map (fun c => c.1)) topicT
  let s2 := writeAndRegister s1 [] topic_page_filename topic_html
  tp.2.foldlM (genCatStep mediaT catT tp.1 topic_dir) s2

/-- `content.py` `generate_pages`: group the entries, then per topic write
the topic page, per category the category page, per entry the media page,
registering every written filename in the expected-files mapping.  The
base output directory is the model root `[]`. -/
def generate_pages (entries : List Record) (mediaT catT topicT : String)
    (fs0 : FsNode) : Option GenState :=
  (groupEntries entries).foldlM (genTopicStep mediaT catT topicT)
    { fs := fs0, expected := [], trace := [], writes := [] }

end Content

-- ------------------------------------------------------------------
-- Folder-level cleanup and main (content.py)
-- ------------------------------------------------------------------

namespace Content

/-- Base-level names that `cleanup_orphan_content_folders` never treats as
topic folders. -/
def knownBaseNames : List String := ["templates", "media", "content.py"]

/-- Phase-1 deletion test at the base level: an unknown, inactive topic
directory, or a topic `.html` file (other than `index.html`/`content.html`)
whose stem is not an active topic slug. -/
def orphanBaseChild (active : List String) (p : String × FsNode) : Bool :=
  match p.2 with
  | FsNode.dir _ => !(knownBaseNames.contains p.1) && !(active.contains p.1)
  | FsNode.file _ =>
    pyEndsWith p.1 ".html" && !((["index.html", "content.html"] : List String).contains p.1)
      && !(active.contains (pyDropRight p.1 5))

/-- Phase-2 deletion test inside an active topic folder: an inactive
category directory, or a category `.html` file whose stem is not an active
category slug of that topic. -/
def orphanTopicChild (activeCats : List String) (p : String × FsNode) : Bool :=
  match p.2 with
  | FsNode.dir _ => !(activeCats.contains p.1)
  | FsNode.file _ =>
    pyEndsWith p.1 ".html" && !(activeCats.contains (pyDropRight p.1 5))

/-- `set.add` on a deduplicated list. -/
def addUnique (l : List String) (s : String) : List String :=
  if l.contains s then l else l ++ [s]

/-- `active_topic_slugs` as built in `main`. -/
def activeTopicSlugsOf (entries : List Record) : List String :=
  entries.foldl (fun acc e =>
    addUnique acc (slugify (rgetD e "topic" (Value.str "unknown-topic")))) []

/-- `setdefault(topic_slug, set()).add(category_slug)`. -/
def acAdd : List (String × List String) → String → String → List (String × List String)
  | [], t, c => [(t, [c])]
  | (t', cs) :: rest, t, c =>
    if t' = t then (t', addUnique cs c) :: rest else (t', cs) :: acAdd rest t c

/-- Category-slug set of a topic slug (empty when absent). -/
def acGet : List (String × List String) → String → List String
  | [], _ => []
  | (t', cs) :: rest, t => if t' = t then cs else acGet rest t

/-- `active_categories_by_topic_slug` as built in `main`. -/
def activeCatsOf (entries : List Record) : List (String × List String) :=
  entries.foldl (fun m e =>
    acAdd m (slugify (rgetD e "topic" (Value.str "unknown-topic")))
      (slugify (rgetD e "category" (Value.str "unknown-category")))) []

/-- Phase 2 of `cleanup_orphan_content_folders` for one active topic slug:
skip when its folder does not exist, else delete its orphaned category
folders and category pages. -/
def cleanupTopicStep (acbt : List (String × List String)) (st : FsNode × List Event)
    (topic_slug : String) : FsNode × List Event :=
  match lookupNode st.1 [topic_slug] with
  | some (FsNode.dir ccs) =>
    let acats := acGet acbt topic_slug
    (updateDirAt st.1 [topic_slug] (fun l => l.filter (fun p => !(orphanTopicChild acats p))),
     st.2 ++ (ccs.filter (orphanTopicChild acats)).map (fun p => Event.delete [topic_slug, p.1]))
  | _ => st

/-- `content.py` `cleanup_orphan_content_folders`: at the base level delete
inactive topic folders (recursively) and orphaned topic pages, then inside
every active topic folder delete inactive category folders and pages.
Returns the tree and the delete events; a non-directory base is left
untouched. -/
def cleanup_orphan_content_folders (fs : FsNode) (active : List String)
    (acbt : List (String × List String)) : FsNode × List Event :=
  match fs with
  | FsNode.file c => (FsNode.file c, [])
  | FsNode.dir cs =>
    let victims := cs.filter (orphanBaseChild active)
    let fs1 := FsNode.dir (cs.filter (fun p => !(orphanBaseChild active p)))
    active.foldl (cleanupTopicStep acbt) (fs1, victims.map (fun p => Event.delete [p.1]))

/-- Outcome of one run of `content.py` `main`: either an uncaught exception
(no tree change, the work up to the crash is not modelled further) or the
final tree with the run's write/delete events in program order. -/
inductive RunOutcome where
  | crashed
  | done (fs : FsNode) (trace : List Event)
deriving Repr

/-- `content.py` `main` after the database and the three templates have
been loaded (load failures return before any write or delete): collect
entries; exit early when there are none; otherwise render all pages, then
run the file-level cleanup, then the folder-level cleanup. -/
def main (db : List PyObj) (mediaT catT topicT : String) (fs0 : FsNode) : RunOutcome :=
  match collect_entries db with
  | Except.error _ => RunOutcome.crashed
  | Except.ok entries =>
    if entries.isEmpty then RunOutcome.done fs0 []
    else
      match generate_pages entries mediaT catT topicT fs0 with
      | Option.none => RunOutcome.crashed
      | some s =>
        let r1 := cleanup_html_content_files s.fs s.expected
        let active := activeTopicSlugsOf entries
        let acbt := activeCatsOf entries
        let r2 := cleanup_orphan_content_folders r1.1 active acbt
        RunOutcome.done r2.1 (s.trace ++ r1.2 ++ r2.2)

end Content

-- ------------------------------------------------------------------
-- datasets.py: table processing
-- ------------------------------------------------------------------

namespace Datasets

/-- `datasets.py` `normalize_value`: map `""` and `None` to `None`, keep
everything else. -/
def normalize_value (v : Value) : Value :=
  if v = Value.str "" ∨ v = Value.none then Value.none else v

/-- `datasets.py` `filter_entry`: drop the blacklisted/primary-key fields. -/
def filter_entry (entry : Record) (keys_to_remove : List String) : Record :=
  entry.filter (fun kv => !(keys_to_remove.contains kv.1))

/-- Sort key used for dataset entry lists: `e.get("name", "").lower()`;
raises `AttributeError` on a non-string name. -/
def dsSortKeyE (e : Record) : Except String String :=
  match rget e "name" with
  | Option.none => Except.ok (pyLowerS "")
  | some (Value.str s) => Except.ok (pyLowerS s)
  | some _ => Except.error "AttributeError"

/-- Model of `json.dumps` for a scalar. -/
def jsonVal : Value → String
  | Value.none => "null"
  | Value.str s => "\"" ++ s ++ "\""
  | Value.int n => intStr n
  | Value.bool true => "true"
  | Value.bool false => "false"

/-- String join. -/
def joinStr (sep : String) : List String → String
  | [] => ""
  | [x] => x
  | x :: xs => x ++ sep ++ joinStr sep xs

/-- Model of `json.dumps` for one entry dict (indentation not modelled;
the pipeline only compares dumps for equality via their digests). -/
def jsonDumpRecord (r : Record) : String :=
  "\x7b" ++ joinStr ", " (r.map (fun kv => jsonVal (Value.str kv.1) ++ ": " ++ jsonVal kv.2))
    ++ "\x7d"

/-- Model of `json.dumps` for a list of entry dicts. -/
def jsonDumpList (l : List Record) : String :=
  "[" ++ joinStr ", " (l.map jsonDumpRecord) ++ "]"

/-- State threaded through `process_table_from_sqlite`: the dataset output
tree (rooted at the dataset content directory) and the event log. -/
structure DsState where
  fs : FsNode
  trace : List Event

/-- One `write_file_if_different` call, logging a write event when a write
happened. -/
def dsWrite (st : DsState) (path : List String) (content : Option String) : DsState :=
  let r := write_file_if_different st.fs path content
  { fs := r.1, trace := st.trace ++ (if r.2 then [Event.write path] else []) }

/-- `datasets.py` `cleanup_orphan_files` on the tree: delete orphaned
`.json` files directly inside `directory`; skip when not a directory. -/
def cleanup_orphan_files (st : DsState) (directory : List String)
    (expected : List String) : DsState :=
  match lookupNode st.fs directory with
  | some (FsNode.dir cs) =>
    { fs := updateDirAt st.fs directory (fun l => cleanupOrphanJsonChildren l expected),
      trace := st.trace ++
        (cs.filter (isOrphanJsonChild expected)).map
          (fun p => Event.delete (directory ++ [p.1])) }
  | _ => st

/-- Lift the `Option` of a raising OS call into the run's exception monad. -/
def ofOptionE {α : Type} (o : Option α) (msg : String) : Except String α :=
  match o with
  | some a => Except.ok a
  | Option.none => Except.error msg

/-- Per-row result inside `process_table_from_sqlite`. -/
structure RowOut where
  full : Record
  filtered : Record
  catKey : Value
  catSlug : String

/-- The row loop body of `process_table_from_sqlite`: normalise the row
into a dict, slugify `file_name`, default `name`/`topic`/`category`
(topic defaults to the table name), compute the category slug and the
grouping key (both call `.lower()` on the category value, which raises on
a non-string), and attach the derived path fields. -/
def processRow (tableName topic_slug : String) (columns : List String)
    (keysToRemove : List String) (row : List Value) : Except String RowOut := do
  let entry : Record := (columns.zip row).map (fun p => (p.1, normalize_value p.2))
  let entry := if truthy (rgetD entry "file_name" Value.none)
    then rset entry "file_name" (Value.str (slugify (rgetD entry "file_name" Value.none)))
    else entry
  let nameV := pyOr (rgetD entry "name" Value.none) (Value.str "unknown-name")
  let topicV := pyOr (rgetD entry "topic" Value.none) (Value.str tableName)
  let catV := pyOr (rgetD entry "category" Value.none) (Value.str "unknown-category")
  let entry := rset (rset (rset entry "name" nameV) "topic" topicV) "category" catV
  let category_slug ←
    if truthy catV then do
      let low ← pyLowerE catV
      pure (if low ≠ "unknown" then slugify catV else "unknown-categories")
    else pure "unknown-categories"
  let name_slug := slugify nameV
  let entry := rset entry "media_piece_path"
    (Value.str ("/content/" ++ topic_slug ++ "/" ++ category_slug ++ "/" ++ name_slug ++ ".html"))
  let entry := if truthy (rgetD entry "screenshot_path" Value.none) then entry
    else rset entry "screenshot_path"
      (Value.str ("/media/content/" ++ topic_slug ++ "/" ++ category_slug ++ "/" ++ name_slug ++ ".jpg"))
  let catKey ←
    if truthy catV then do
      let low ← pyLowerE catV
      pure (if low ≠ "unknown" then catV else Value.str "unknown-category")
    else pure (Value.str "unknown-category")
  Except.ok { full := entry, filtered := filter_entry entry keysToRemove,
              catKey := catKey, catSlug := category_slug }

/-- The category loop body of `process_table_from_sqlite`: sort the
category's filtered entries, compute the category slug from the grouping
key, create the category folder, write each entry file (collecting the
expected names), write the aggregated category file, then immediately run
the orphan-file cleanup for the category folder. -/
def processCategory (topic_slug : String) (st : DsState) (grp : Value × List Record) :
    Except String DsState := do
  let entriesSorted ← pySortByKeyE dsSortKeyE grp.2
  let low ← pyLowerE grp.1
  let cat_slug := if low ≠ "unknown-category" then slugify grp.1 else "unknown-categories"
  let fs1 ← ofOptionE (mkdirsAt st.fs [topic_slug, cat_slug]) "OSError"
  let st1 : DsState := { st with fs := fs1 }
  let r := entriesSorted.foldl
    (fun (acc : DsState × List String) ef =>
      let file_name_slug := slugify (rgetD ef "name" (Value.str "unknown-name"))
      let filename := file_name_slug ++ ".json"
      (dsWrite acc.1 [topic_slug, cat_slug, filename] (some (jsonDumpRecord ef)),
       acc.2 ++ [filename]))
    (st1, [])
  let st2 := dsWrite r.1 [topic_slug, cat_slug ++ ".json"] (some (jsonDumpList entriesSorted))
  Except.ok (cleanup_orphan_files st2 [topic_slug, cat_slug] r.2)

/-- `datasets.py` `process_table_from_sqlite` after the sqlite plumbing
(`PRAGMA table_info` and `SELECT *` results are the `columns` and `rows`
arguments): normalise every row, write the topic aggregate at the base
level, then process each category group in insertion order.  Returns the
final state, the full entries and the active category slugs. -/
def process_table (tableName : String) (columns : List (String × Bool))
    (rows : List (List Value)) (blacklist : List String) (st : DsState) :
    Except String (DsState × List Record × List String) := do
  let topic_slug := slugify (Value.str tableName)
  let colNames := columns.map (fun c => c.1)
  let primary_keys := (columns.filter (fun c => c.2)).map (fun c => c.1)
  let keys_to_remove := blacklist ++ primary_keys
  if rows.isEmpty then
    Except.ok (dsWrite st [topic_slug ++ ".json"] (some "[]"), [], [])
  else do
    let outs ← mapExcept (processRow tableName topic_slug colNames keys_to_remove) rows
    let all_entries_full := outs.map (fun o => o.full)
    let all_entries_filtered := outs.map (fun o => o.filtered)
    let data_by_category := outs.foldl (fun m o => addCat m o.catKey o.filtered) []
    let active_category_slugs := outs.foldl (fun acc o => Content.addUnique acc o.catSlug) []
    let fs1 ← ofOptionE (mkdirsAt st.fs [topic_slug]) "OSError"
    let st1 : DsState := { st with fs := fs1 }
    let sortedFiltered ← pySortByKeyE dsSortKeyE all_entries_filtered
    let st2 := dsWrite st1 [topic_slug ++ ".json"] (some (jsonDumpList sortedFiltered))
    let st3 ← data_by_category.foldlM (processCategory topic_slug) st2
    Except.ok (st3, all_entries_full, active_category_slugs)

end Datasets

-- ------------------------------------------------------------------
-- Proof-support definitions and concrete example data
-- ------------------------------------------------------------------

/-- Invariant carried through `generate_pages`: every `write_file` call so
far is registered in the expected-files mapping for its directory, and the
trace holds only write events. -/
def GenInv (s : Content.GenState) : Prop :=
  (∀ p ∈ s.writes, p.2 ∈ expGet s.expected p.1) ∧ s.trace.all isWriteEv = true

/-- The total value of the `collect_entries` sort key (`""` on the values
where the Python key raises; used only to state sortedness of successful
runs). -/
def nameKeyD (e : Record) : String :=
  match rget e "name" with
  | Option.none => pyLowerS "unknown-name"
  | some (Value.str s) => pyLowerS s
  | some _ => ""

/-- The total value of the dataset sort key (`e.get("name", "").lower()`). -/
def dsNameKeyD (e : Record) : String :=
  match rget e "name" with
  | Option.none => pyLowerS ""
  | some (Value.str s) => pyLowerS s
  | some _ => ""

/-- Concrete input: one well-formed record (the spec's scenario record). -/
def exampleDb : List PyObj :=
  [PyObj.dict [("name", Value.str "Cool Clip"), ("topic", Value.str "Comedy Hour"),
    ("category", Value.str "Skits")]]

/-- The entries produced for `exampleDb`. -/
def exampleEntries : List Record :=
  match Content.collect_entries exampleDb with
  | Except.ok l => l
  | Except.error _ => []

/-- Final tree of a completed run (placeholder for a crashed one). -/
def fsOfRun : Content.RunOutcome → FsNode
  | Content.RunOutcome.done fs _ => fs
  | Content.RunOutcome.crashed => FsNode.dir []

/-- Event trace of a completed run (placeholder for a crashed one). -/
def traceOfRun : Content.RunOutcome → List Event
  | Content.RunOutcome.done _ tr => tr
  | Content.RunOutcome.crashed => []

/-- The tree left by a baseline run of `content.py` `main` on `exampleDb`
from an empty base directory. -/
def baselineFs : FsNode := fsOfRun (Content.main exampleDb "M" "C" "T" (FsNode.dir []))

/-- A starting tree holding a stale topic folder. -/
def exampleStartFs : FsNode :=
  FsNode.dir [("stale-topic", FsNode.dir [("old.html", FsNode.file "o")])]

/-- The `generate_pages` state for `exampleEntries` from an empty base. -/
def exampleGenState : Content.GenState :=
  match Content.generate_pages exampleEntries "M" "C" "T" (FsNode.dir []) with
  | some s => s
  | Option.none => { fs := FsNode.dir [], expected := [], trace := [], writes := [] }

/-- Concrete dataset tree holding an orphaned entry file of category `c1`. -/
def dsCexFs : FsNode :=
  FsNode.dir [("t", FsNode.dir [("c1", FsNode.dir [("orphan.json", FsNode.file "x")])])]

/-- A concrete `process_table` run over two rows in two categories,
starting from `dsCexFs`. -/
def dsCexRun : Except String (Datasets.DsState × List Record × List String) :=
  Datasets.process_table "t" [("name", false), ("category", false)]
    [[Value.str "a", Value.str "c1"], [Value.str "b", Value.str "c2"]] []
    { fs := dsCexFs, trace := [] }

/-- The event trace of that run. -/
def dsCexTrace : List Event :=
  match dsCexRun with
  | Except.ok r => r.1.trace
  | Except.error _ => []

/-- Concrete unsorted dataset records. -/
def dsSortExampleInput : List Record :=
  [[("name", Value.str "b")], [("name", Value.str "a")]]

/-- Their sorted form as computed by the dataset sort. -/
def dsSortExample : List Record :=
  match pySortByKeyE Datasets.dsSortKeyE dsSortExampleInput with
  | Except.ok l => l
  | Except.error _ => []

-- ------------------------------------------------------------------
-- Lemmas
-- ------------------------------------------------------------------

theorem foldl_inv {α σ : Type} (inv : σ → Prop) (f : σ → α → σ) :
    ∀ (l : List α), (∀ s a, a ∈ l → inv s → inv (f s a)) →
      ∀ s, inv s → inv (l.foldl f s) := by
  intro l
  induction l with
  | nil => intro _ s h; simpa using h
  | cons x xs ih =>
    intro hstep s h
    simp only [List.foldl_cons]
    exact ih (fun s a ha hs => hstep s a (List.mem_cons_of_mem _ ha) hs) _
      (hstep s x (List.mem_cons_self _ _) h)

theorem foldlM_inv {α σ : Type} (inv : σ → Prop) (f : σ → α → Option σ) :
    ∀ (l : List α), (∀ s a s', a ∈ l → inv s → f s a = some s' → inv s') →
      ∀ s s', inv s → l.foldlM f s = some s' → inv s' := by
  intro l
  induction l with
  | nil =>
    intro _ s s' h hfold
    simp [List.foldlM] at hfold
    rwa [← hfold]
  | cons x xs ih =>
    intro hstep s s' h hfold
    rw [List.foldlM_cons] at hfold
    cases hfx : f s x with
    | none => rw [hfx] at hfold; simp at hfold
    | some s1 =>
      rw [hfx] at hfold
      simp only [Option.bind_eq_bind, Option.some_bind] at hfold
      exact ih (fun s a s' ha hs hf => hstep s a s' (List.mem_cons_of_mem _ ha) hs hf)
        s1 s' (hstep s x s1 (List.mem_cons_self _ _) h hfx) hfold

theorem expGet_expAdd (E : Expected) (d : List String) (f : String) :
    ∀ d0, expGet (expAdd E d f) d0 =
      if d = d0 then expGet E d0 ++ [f] else expGet E d0 := by
  induction E with
  | nil =>
    intro d0
    by_cases h : d = d0
    · subst h; simp [expAdd, expGet]
    · simp [expAdd, expGet, h]
  | cons hd rest ih =>
    obtain ⟨d', fsn⟩ := hd
    intro d0
    by_cases hdd : d' = d
    · subst hdd
      by_cases h0 : d' = d0
      · subst h0
        simp [expAdd, expGet]
      · have hne : ¬(d' = d0) := h0
        simp [expAdd, expGet, hne]
    · by_cases h0 : d' = d0
      · subst h0
        have hne : ¬(d = d') := fun h => hdd h.symm
        simp [expAdd, expGet, hdd, hne]
      · simp [expAdd, expGet, hdd, h0, ih d0]

theorem writeAndRegister_inv (s : Content.GenState) (d : List String) (f c : String)
    (h : GenInv s) : GenInv (Content.writeAndRegister s d f c) := by
  constructor
  · intro p hp
    have hw : p ∈ s.writes ++ [(d, f)] := hp
    rw [List.mem_append] at hw
    show p.2 ∈ expGet (expAdd s.expected d f) p.1
    rw [expGet_expAdd]
    rcases hw with hold | hnew
    · by_cases hd : d = p.1
      · rw [if_pos hd]
        exact List.mem_append_left _ (h.1 p hold)
      · rw [if_neg hd]
        exact h.1 p hold
    · have : p = (d, f) := by simpa using hnew
      subst this
      simp
  · show (Content.writeAndRegister s d f c).trace.all isWriteEv = true
    simp only [Content.writeAndRegister]
    rw [List.all_append, h.2, Bool.true_and]
    by_cases hw : (Content.write_file s.fs (d ++ [f]) (some c)).2
    · simp [hw, isWriteEv]
    · simp [hw]

theorem genEntryStep_inv (mT : String) (cd : List String) (s : Content.GenState)
    (e : Record) (h : GenInv s) : GenInv (Content.genEntryStep mT cd s e) :=
  writeAndRegister_inv _ _ _ _ h

theorem genCatStep_inv (mT cT : String) (topicO : Value) (td : List String)
    (s : Content.GenState) (cat : Value × List Record) (s' : Content.GenState)
    (hstep : Content.genCatStep mT cT topicO td s cat = some s') (h : GenInv s) :
    GenInv s' := by
  simp only [Content.genCatStep] at hstep
  cases hmk : mkdirsAt s.fs (td ++ [Content.slugify cat.1]) with
  | none => rw [hmk] at hstep; simp at hstep
  | some fs1 =>
    rw [hmk] at hstep
    simp only [Option.bind_eq_bind, Option.some_bind, Option.some.injEq] at hstep
    subst hstep
    have h1 : GenInv { s with fs := fs1 } := h
    exact foldl_inv GenInv _ _ (fun s a _ hs => genEntryStep_inv _ _ s a hs) _
      (writeAndRegister_inv _ _ _ _ h1)

theorem genTopicStep_inv (mT cT tT : String) (s : Content.GenState)
    (tp : Value × List (Value × List Record)) (s' : Content.GenState)
    (hstep : Content.genTopicStep mT cT tT s tp = some s') (h : GenInv s) :
    GenInv s' := by
  simp only [Content.genTopicStep] at hstep
  cases hmk : mkdirsAt s.fs [Content.slugify tp.1] with
  | none => rw [hmk] at hstep; simp at hstep
  | some fs1 =>
    rw [hmk] at hstep
    simp only [Option.bind_eq_bind, Option.some_bind] at hstep
    have h1 : GenInv { s with fs := fs1 } := h
    exact foldlM_inv GenInv _ _
      (fun s a s' _ hs hf => genCatStep_inv _ _ _ _ s a s' hf hs)
      _ s' (writeAndRegister_inv _ _ _ _ h1) hstep

theorem generate_pages_inv (entries : List Record) (mT cT tT : String) (fs0 : FsNode)
    (s : Content.GenState)
    (h : Content.generate_pages entries mT cT tT fs0 = some s) : GenInv s := by
  unfold Content.generate_pages at h
  refine foldlM_inv GenInv _ _
    (fun s a s' _ hs hf => genTopicStep_inv _ _ _ s a s' hf hs) _ s ?_ h
  exact ⟨fun p hp => absurd hp (List.not_mem_nil p), rfl⟩

/-- C9.  Every `write_file` call of `generate_pages` registers its filename
in the expected-files mapping for its directory (before any pruning runs,
since `main` only prunes after `generate_pages` returns); consequently no
file written by the run can be selected for deletion by the file-level
cleanup of its directory. -/
theorem run_writes_registered_before_pruning :
    ∀ (entries : List Record) (mT cT tT : String) (fs0 : FsNode)
      (s : Content.GenState),
      Content.generate_pages entries mT cT tT fs0 = some s →
      ∀ (d : List String) (f : String), (d, f) ∈ s.writes →
        f ∈ expGet s.expected d
        ∧ ∀ (cs : List (String × FsNode)) (n : FsNode), (f, n) ∈ cs →
            (f, n) ∈ Content.cleanupOrphanHtmlChildren cs (expGet s.expected d) := by
  intro entries mT cT tT fs0 s hgen d f hw
  have hreg : f ∈ expGet s.expected d := (generate_pages_inv _ _ _ _ _ _ hgen).1 (d, f) hw
  refine ⟨hreg, ?_⟩
  intro cs n hmem
  refine List.mem_filter.mpr ⟨hmem, ?_⟩
  simp [Content.isOrphanHtmlChild]
  exact Or.inr hreg

set_option maxRecDepth 10000 in
/-- Witness for C9: in the concrete example run, the topic page filename is
registered for the base directory and survives the base-directory cleanup. -/
theorem run_writes_registered_before_pruning_witness :
    "comedy-hour.html" ∈ expGet exampleGenState.expected []
    ∧ ("comedy-hour.html", FsNode.file "T") ∈
        Content.cleanupOrphanHtmlChildren [("comedy-hour.html", FsNode.file "T")]
          (expGet exampleGenState.expected []) := by
  have h := run_writes_registered_before_pruning exampleEntries "M" "C" "T"
    (FsNode.dir []) exampleGenState rfl [] "comedy-hour.html" (by decide)
  exact ⟨h.1, h.2 _ _ (List.mem_singleton.mpr rfl)⟩

theorem head?_dropWhile_not (p : Char → Bool) :
    ∀ (l : List Char) (c : Char), (l.dropWhile p).head? = some c → p c = false := by
  intro l
  induction l with
  | nil => intro c h; simp [List.dropWhile] at h
  | cons a t ih =>
    intro c h
    by_cases hp : p a
    · rw [List.dropWhile_cons_of_pos hp] at h
      exact ih c h
    · rw [List.dropWhile_cons_of_neg hp] at h
      simp at h
      rw [← h]
      exact Bool.of_not_eq_true hp

theorem mem_dropWhile_subset {p : Char → Bool} {l : List Char} {c : Char}
    (h : c ∈ l.dropWhile p) : c ∈ l :=
  (List.dropWhile_sublist p).mem h

theorem mem_pyStripPunct {l : List Char} {c : Char} (h : c ∈ pyStripPunct l) : c ∈ l := by
  unfold pyStripPunct at h
  have h1 : c ∈ (l.reverse.dropWhile stripChar).reverse := mem_dropWhile_subset h
  rw [List.mem_reverse] at h1
  have h2 : c ∈ l.reverse := mem_dropWhile_subset h1
  rwa [List.mem_reverse] at h2

theorem head?_pyStripPunct {l : List Char} {c : Char}
    (h : (pyStripPunct l).head? = some c) : stripChar c = false :=
  head?_dropWhile_not stripChar _ c h

theorem getLast?_suffix_stable {l₁ l₂ : List Char} {c : Char}
    (hsuf : l₁ <:+ l₂) (h : l₁.getLast? = some c) : l₂.getLast? = some c := by
  obtain ⟨t, rfl⟩ := hsuf
  rw [List.getLast?_append, h]
  rfl

theorem getLast?_pyStripPunct {l : List Char} {c : Char}
    (h : (pyStripPunct l).getLast? = some c) : stripChar c = false := by
  unfold pyStripPunct at h
  have hsuf : (pyStripPunct l) <:+ (l.reverse.dropWhile stripChar).reverse :=
    List.dropWhile_suffix stripChar
  have h2 : ((l.reverse.dropWhile stripChar).reverse).getLast? = some c :=
    getLast?_suffix_stable (List.dropWhile_suffix stripChar) h
  rw [List.getLast?_reverse] at h2
  exact head?_dropWhile_not stripChar _ c h2

theorem slugCore_all_allowed (l : List Char) : (slugCore l).all allowedChar = true := by
  rw [List.all_eq_true]
  intro c hc
  have : c ∈ ((l.map Char.toLower).map slugRep).filter allowedChar := mem_pyStripPunct hc
  exact (List.mem_filter.mp this).2

/-- The string produced by `slugify` for a non-`None` value. -/
theorem slugify_eq (v : Value) (hv : v ≠ Value.none) :
    Content.slugify v =
      (if (slugCore (pyStr v).data).isEmpty then "unknown"
       else String.mk (slugCore (pyStr v).data)) := by
  cases v with
  | none => exact absurd rfl hv
  | str s => rfl
  | int n => rfl
  | bool b => rfl

theorem data_if_slug (l : List Char) :
    ((if l.isEmpty then "unknown" else String.mk l) : String).data =
      (if l.isEmpty then "unknown".data else l) := by
  by_cases h : l.isEmpty <;> simp [h]

theorem slugify_data_cases (v : Value) :
    (Content.slugify v).data = "unknown".data ∨
      ((Content.slugify v).data = slugCore (pyStr v).data ∧
        (slugCore (pyStr v).data).isEmpty = false) := by
  by_cases hn : v = Value.none
  · subst hn; exact Or.inl rfl
  · rw [slugify_eq v hn]
    by_cases h : (slugCore (pyStr v).data).isEmpty
    · rw [if_pos h]; exact Or.inl rfl
    · rw [if_neg h]
      exact Or.inr ⟨rfl, Bool.of_not_eq_true h⟩

/-- C3.  The slug normaliser is total, deterministic and side-effect free:
for every input value (string, non-string scalar or `None`),
`slug(x) = slug(x)`, the result contains only characters in `[a-z0-9-.]`,
is never empty, and its first and last characters are never `-` or `.`
(`stripChar c = false` says `c` is neither); and the `datasets.py` copy of
the function agrees with the `content.py` one. -/
theorem slugify_total_deterministic_safe (v : Value) :
    Content.slugify v = Content.slugify v
    ∧ Datasets.slugify v = Content.slugify v
    ∧ (Content.slugify v).data.all allowedChar = true
    ∧ (Content.slugify v).data.isEmpty = false
    ∧ stripChar ((Content.slugify v).data.headD 'x') = false
    ∧ stripChar ((Content.slugify v).data.getLastD 'x') = false := by
  have hsame : Datasets.slugify v = Content.slugify v := by
    cases v <;> rfl
  have hcases := slugify_data_cases v
  refine ⟨rfl, hsame, ?_, ?_, ?_, ?_⟩
  · rcases hcases with h | ⟨h, _⟩
    · rw [h]; decide
    · rw [h]; exact slugCore_all_allowed _
  · rcases hcases with h | ⟨h, hne⟩
    · rw [h]; decide
    · rw [h]; exact hne
  · rcases hcases with h | ⟨h, hne⟩
    · rw [h]; decide
    · rw [h, List.headD_eq_head?]
      cases hh : (slugCore (pyStr v).data).head? with
      | none =>
        rw [List.head?_eq_none_iff] at hh
        rw [hh] at hne
        simp at hne
      | some c =>
        exact head?_pyStripPunct (l := ((pyStr v).data.map Char.toLower).map slugRep
          |>.filter allowedChar) hh
  · rcases hcases with h | ⟨h, hne⟩
    · rw [h]; decide
    · rw [h, List.getLastD_eq_getLast?]
      cases hh : (slugCore (pyStr v).data).getLast? with
      | none =>
        rw [List.getLast?_eq_none_iff] at hh
        rw [hh] at hne
        simp at hne
      | some c =>
        exact getLast?_pyStripPunct (l := ((pyStr v).data.map Char.toLower).map slugRep
          |>.filter allowedChar) hh

theorem getChild_setChild_self (cs : List (String × FsNode)) (n : String) (x : FsNode) :
    getChild (setChild cs n x) n = some x := by
  induction cs with
  | nil => simp [setChild, getChild]
  | cons hd t ih =>
    obtain ⟨a, b⟩ := hd
    by_cases h : a = n
    · simp [setChild, h, getChild]
    · simp [setChild, h, getChild, ih]

theorem getChild_setChild_ne (cs : List (String × FsNode)) (n m : String) (x : FsNode)
    (hne : m ≠ n) : getChild (setChild cs n x) m = getChild cs m := by
  have hnm : n ≠ m := fun h => hne h.symm
  induction cs with
  | nil => simp [setChild, getChild, hnm]
  | cons hd t ih =>
    obtain ⟨a, b⟩ := hd
    by_cases h : a = n
    · subst h
      simp [setChild, getChild, hnm]
    · simp only [setChild, getChild, if_neg h]
      by_cases h2 : a = m
      · simp [getChild, h2]
      · simp [getChild, h2, ih]

theorem lookup_setFileAt :
    ∀ (p : List String) (fs : FsNode) (c : String) (fs' : FsNode),
      setFileAt fs p c = some fs' → lookupNode fs' p = some (FsNode.file c) := by
  intro p
  induction p with
  | nil => intro fs c fs' h; simp [setFileAt] at h
  | cons d rest ih =>
    intro fs c fs' h
    cases fs with
    | file s => simp [setFileAt] at h
    | dir cs =>
      cases rest with
      | nil =>
        cases hg : getChild cs d with
        | none =>
          simp only [setFileAt, hg] at h
          cases h
          simp [lookupNode, getChild_setChild_self]
        | some child =>
          cases child with
          | file s =>
            simp only [setFileAt, hg] at h
            cases h
            simp [lookupNode, getChild_setChild_self]
          | dir ccs => simp [setFileAt, hg] at h
      | cons r rs =>
        cases hg : getChild cs d with
        | none =>
          simp only [setFileAt, hg, Option.map_eq_some'] at h
          obtain ⟨x, hx, rfl⟩ := h
          simp [lookupNode, getChild_setChild_self]
          exact ih _ c x hx
        | some child =>
          cases child with
          | file s => simp [setFileAt, hg] at h
          | dir ccs =>
            simp only [setFileAt, hg, Option.map_eq_some'] at h
            obtain ⟨x, hx, rfl⟩ := h
            simp [lookupNode, getChild_setChild_self]
            exact ih _ c x hx

/-- C5.  The content-addressed writers: when the target already holds a
file whose digest equals the new content's digest, no write happens and
the no-write outcome `false` is reported; consequently writing the same
content twice at the same path is a no-op on the second write.  Both the
`content.py` writer and the `datasets.py` writer satisfy this. -/
theorem write_file_content_addressed :
    (∀ (fs : FsNode) (p : List String) (c existing : String),
      lookupNode fs p = some (FsNode.file existing) →
      shaModel existing = shaModel c →
      Content.write_file fs p (some c) = (fs, false)
      ∧ Datasets.write_file_if_different fs p (some c) = (fs, false))
    ∧ (∀ (fs : FsNode) (p : List String) (c : String),
      Content.write_file (Content.write_file fs p (some c)).1 p (some c) =
        ((Content.write_file fs p (some c)).1, false)
      ∧ Datasets.write_file_if_different
          (Datasets.write_file_if_different fs p (some c)).1 p (some c) =
        ((Datasets.write_file_if_different fs p (some c)).1, false)) := by
  have hsame : ∀ (fs : FsNode) (p : List String) (c : Option String),
      Datasets.write_file_if_different fs p c = Content.write_file fs p c :=
    fun _ _ _ => rfl
  have hskip : ∀ (fs : FsNode) (p : List String) (c existing : String),
      lookupNode fs p = some (FsNode.file existing) →
      shaModel existing = shaModel c →
      Content.write_file fs p (some c) = (fs, false) := by
    intro fs p c existing hl hs
    simp [Content.write_file, hl, hs]
  have hidem : ∀ (fs : FsNode) (p : List String) (c : String),
      Content.write_file (Content.write_file fs p (some c)).1 p (some c) =
        ((Content.write_file fs p (some c)).1, false) := by
    intro fs p c
    cases hl : lookupNode fs p with
    | none =>
      cases hset : setFileAt fs p c with
      | none => simp [Content.write_file, hl, hset]
      | some fs' =>
        have hlook := lookup_setFileAt p fs c fs' hset
        simp [Content.write_file, hl, hset, hlook]
    | some node =>
      cases node with
      | dir cs => simp [Content.write_file, hl]
      | file existing =>
        by_cases hs : shaModel existing = shaModel c
        · simp [Content.write_file, hl, hs]
        · cases hset : setFileAt fs p c with
          | none => simp [Content.write_file, hl, hs, hset]
          | some fs' =>
            have hlook := lookup_setFileAt p fs c fs' hset
            simp [Content.write_file, hl, hs, hset, hlook]
  constructor
  · intro fs p c existing hl hs
    exact ⟨hskip fs p c existing hl hs, by rw [hsame]; exact hskip fs p c existing hl hs⟩
  · intro fs p c
    refine ⟨hidem fs p c, ?_⟩
    rw [hsame, hsame]
    exact hidem fs p c

/-- Witness for C5: a concrete skip at an already-identical file. -/
theorem write_file_content_addressed_witness :
    Content.write_file (FsNode.dir [("a.html", FsNode.file "x")]) ["a.html"] (some "x") =
      (FsNode.dir [("a.html", FsNode.file "x")], false)
    ∧ Datasets.write_file_if_different (FsNode.dir [("a.html", FsNode.file "x")])
        ["a.html"] (some "x") =
      (FsNode.dir [("a.html", FsNode.file "x")], false) :=
  write_file_content_addressed.1 _ _ "x" "x" rfl rfl

/-- C10.  The file-level cleanups delete only files with the managed
artifact extension: a directory entry whose name does not end in `.html`
(respectively `.json`) is never removed by `cleanup_orphan_html_files`
(respectively `cleanup_orphan_files`), whatever the expected set. -/
theorem file_cleanup_spares_unmanaged_extensions :
    ∀ (cs : List (String × FsNode)) (expected : List String) (name : String) (node : FsNode),
      (name, node) ∈ cs →
      (pyEndsWith name ".html" = false →
        (name, node) ∈ Content.cleanupOrphanHtmlChildren cs expected)
      ∧ (pyEndsWith name ".json" = false →
        (name, node) ∈ Datasets.cleanupOrphanJsonChildren cs expected) := by
  intro cs expected name node hmem
  constructor
  · intro hext
    refine List.mem_filter.mpr ⟨hmem, ?_⟩
    simp [Content.isOrphanHtmlChild, hext]
  · intro hext
    refine List.mem_filter.mpr ⟨hmem, ?_⟩
    simp [Datasets.isOrphanJsonChild, hext]

/-- Witness for C10: an unexpected `notes.txt` survives both cleanups. -/
theorem file_cleanup_spares_unmanaged_extensions_witness :
    ("notes.txt", FsNode.file "x") ∈
      Content.cleanupOrphanHtmlChildren [("notes.txt", FsNode.file "x")] []
    ∧ ("notes.txt", FsNode.file "x") ∈
      Datasets.cleanupOrphanJsonChildren [("notes.txt", FsNode.file "x")] [] :=
  ⟨(file_cleanup_spares_unmanaged_extensions _ [] _ _
      (List.mem_singleton.mpr rfl)).1 (by decide),
   (file_cleanup_spares_unmanaged_extensions _ [] _ _
      (List.mem_singleton.mpr rfl)).2 (by decide)⟩

theorem runSteps_ok_of_no_fault :
    ∀ (steps : List (String × String)) (faults : List Bool) (c : String),
      anyFaultIn faults steps = false →
      runSteps faults steps c = Except.ok (applySteps steps c) := by
  intro steps
  induction steps with
  | nil => intro faults c _; rfl
  | cons st rest ih =>
    intro faults c h
    simp only [anyFaultIn, Bool.or_eq_false_iff] at h
    simp only [runSteps, h.1, if_false, Bool.false_eq_true]
    exact ih faults.tail (pyReplace c st.1 st.2) h.2

theorem runSteps_error_of_fault :
    ∀ (steps : List (String × String)) (faults : List Bool) (c : String),
      anyFaultIn faults steps = true →
      runSteps faults steps c = Except.error "substitution error" := by
  intro steps
  induction steps with
  | nil => intro faults c h; simp [anyFaultIn] at h
  | cons st rest ih =>
    intro faults c h
    by_cases hh : faults.headD false
    · simp only [runSteps, hh, if_true]
    · simp only [anyFaultIn, Bool.or_eq_true] at h
      rcases h with h | h

      · exact absurd h hh
      · simp only [runSteps, hh, Bool.false_eq_true, if_false]
        exact ih faults.tail (pyReplace c st.1 st.2) h

/-- C6.  Render operations contain substitution errors locally: for any
fault pattern, each of the three render calls (entry, category, topic)
returns either the fully substituted content or the original, unmodified
template — never a partially substituted string and never an exception or
null (the return type is a total `String`); and whenever some substitution
step raises, the original template is returned. -/
theorem render_substitution_error_containment :
    ∀ (faults : List Bool) (entry : Record) (template : String)
      (topicO catO : Value) (es : List Record) (catTemplate : String)
      (cats : List Value) (topicTemplate : String),
      (Content.generate_media_html_f faults entry template = template
        ∨ Content.generate_media_html_f faults entry template =
            applySteps (Content.generate_media_html_steps entry) template)
      ∧ (anyFaultIn faults (Content.generate_media_html_steps entry) = true →
          Content.generate_media_html_f faults entry template = template)
      ∧ (Content.generate_category_html_f faults topicO catO es catTemplate = catTemplate
        ∨ Content.generate_category_html_f faults topicO catO es catTemplate =
            applySteps (Content.generate_category_html_steps topicO catO) catTemplate)
      ∧ (anyFaultIn faults (Content.generate_category_html_steps topicO catO) = true →
          Content.generate_category_html_f faults topicO catO es catTemplate = catTemplate)
      ∧ (Content.generate_topic_html_f faults topicO cats topicTemplate = topicTemplate
        ∨ Content.generate_topic_html_f faults topicO cats topicTemplate =
            applySteps (Content.generate_topic_html_steps topicO) topicTemplate)
      ∧ (anyFaultIn faults (Content.generate_topic_html_steps topicO) = true →
          Content.generate_topic_html_f faults topicO cats topicTemplate = topicTemplate) := by
  intro faults entry template topicO catO es catTemplate cats topicTemplate
  have hm : ∀ h : anyFaultIn faults (Content.generate_media_html_steps entry) = true,
      Content.generate_media_html_f faults entry template = template := by
    intro h
    unfold Content.generate_media_html_f
    rw [runSteps_error_of_fault _ _ _ h]
  have hc : ∀ h : anyFaultIn faults (Content.generate_category_html_steps topicO catO) = true,
      Content.generate_category_html_f faults topicO catO es catTemplate = catTemplate := by
    intro h
    unfold Content.generate_category_html_f
    rw [runSteps_error_of_fault _ _ _ h]
  have ht : ∀ h : anyFaultIn faults (Content.generate_topic_html_steps topicO) = true,
      Content.generate_topic_html_f faults topicO cats topicTemplate = topicTemplate := by
    intro h
    unfold Content.generate_topic_html_f
    rw [runSteps_error_of_fault _ _ _ h]
  refine ⟨?_, hm, ?_, hc, ?_, ht⟩
  · by_cases h : anyFaultIn faults (Content.generate_media_html_steps entry) = true
    · exact Or.inl (hm h)
    · right
      unfold Content.generate_media_html_f
      rw [runSteps_ok_of_no_fault _ _ _ (Bool.of_not_eq_true h)]
  · by_cases h : anyFaultIn faults (Content.generate_category_html_steps topicO catO) = true
    · exact Or.inl (hc h)
    · right
      unfold Content.generate_category_html_f
      rw [runSteps_ok_of_no_fault _ _ _ (Bool.of_not_eq_true h)]
  · by_cases h : anyFaultIn faults (Content.generate_topic_html_steps topicO) = true
    · exact Or.inl (ht h)
    · right
      unfold Content.generate_topic_html_f
      rw [runSteps_ok_of_no_fault _ _ _ (Bool.of_not_eq_true h)]

/-- Witness for C6: a first-step fault makes all three renderers return
their templates unchanged. -/
theorem render_substitution_error_containment_witness :
    Content.generate_media_html_f [true] [] "MEDIA NAME_ENTRY" = "MEDIA NAME_ENTRY"
    ∧ Content.generate_category_html_f [true] Value.none Value.none [] "CAT TOPIC_ENTRY" =
        "CAT TOPIC_ENTRY"
    ∧ Content.generate_topic_html_f [true] Value.none [] "TOPIC TOPIC_ENTRY" =
        "TOPIC TOPIC_ENTRY" :=
  ⟨(render_substitution_error_containment [true] [] "MEDIA NAME_ENTRY"
      Value.none Value.none [] "CAT TOPIC_ENTRY" [] "TOPIC TOPIC_ENTRY").2.1 rfl,
   (render_substitution_error_containment [true] [] "MEDIA NAME_ENTRY"
      Value.none Value.none [] "CAT TOPIC_ENTRY" [] "TOPIC TOPIC_ENTRY").2.2.2.1 rfl,
   (render_substitution_error_containment [true] [] "MEDIA NAME_ENTRY"
      Value.none Value.none [] "CAT TOPIC_ENTRY" [] "TOPIC TOPIC_ENTRY").2.2.2.2.2 rfl⟩

theorem all_delete_map {α : Type} (l : List α) (g : α → List String) :
    ((l.map (fun a => Event.delete (g a))).all isDeleteEv) = true := by
  rw [List.all_eq_true]
  intro x hx
  rcases List.mem_map.mp hx with ⟨a, _, rfl⟩
  rfl

theorem cleanup_orphan_html_files_all_delete (fs : FsNode) (d : List String)
    (exp : List String) :
    ((Content.cleanup_orphan_html_files fs d exp).2.all isDeleteEv) = true := by
  unfold Content.cleanup_orphan_html_files
  cases hl : lookupNode fs d with
  | none => rfl
  | some node =>
    cases node with
    | file c => rfl
    | dir cs => exact all_delete_map _ _

theorem cleanup_html_content_files_all_delete (fs : FsNode) (E : Expected) :
    ((Content.cleanup_html_content_files fs E).2.all isDeleteEv) = true := by
  unfold Content.cleanup_html_content_files
  refine foldl_inv (fun st => (st.2.all isDeleteEv) = true) _ E ?_ (fs, []) rfl
  intro st a _ hst
  show ((st.2 ++ (Content.cleanup_orphan_html_files st.1 a.1 a.2).2).all isDeleteEv) = true
  rw [List.all_append, hst, Bool.true_and]
  exact cleanup_orphan_html_files_all_delete _ _ _

theorem cleanupTopicStep_all_delete (acbt : List (String × List String))
    (st : FsNode × List Event) (a : String) (hst : (st.2.all isDeleteEv) = true) :
    (((Content.cleanupTopicStep acbt st a).2).all isDeleteEv) = true := by
  unfold Content.cleanupTopicStep
  cases hl : lookupNode st.1 [a] with
  | none => exact hst
  | some node =>
    cases node with
    | file c => exact hst
    | dir ccs =>
      show ((st.2 ++ _).all isDeleteEv) = true
      rw [List.all_append, hst, Bool.true_and]
      exact all_delete_map _ _

theorem cleanup_orphan_content_folders_all_delete (fs : FsNode) (active : List String)
    (acbt : List (String × List String)) :
    ((Content.cleanup_orphan_content_folders fs active acbt).2.all isDeleteEv) = true := by
  cases fs with
  | file c => rfl
  | dir cs =>
    unfold Content.cleanup_orphan_content_folders
    refine foldl_inv (fun st => (st.2.all isDeleteEv) = true) _ active
      (fun st a _ hst => cleanupTopicStep_all_delete acbt st a hst) _ ?_
    exact all_delete_map _ _

theorem dropWhile_isWrite_append (A B : List Event) (hA : A.all isWriteEv = true) :
    (A ++ B).dropWhile isWriteEv = B.dropWhile isWriteEv := by
  induction A with
  | nil => rfl
  | cons a t ih =>
    rw [List.all_cons, Bool.and_eq_true] at hA
    rw [List.cons_append, List.dropWhile_cons_of_pos hA.1]
    exact ih hA.2

theorem all_delete_dropWhile (B : List Event) (hB : (B.all isDeleteEv) = true) :
    ((B.dropWhile isWriteEv).all isDeleteEv) = true := by
  rw [List.all_eq_true] at hB ⊢
  intro x hx
  exact hB x ((List.dropWhile_sublist isWriteEv).mem hx)

/-- C4 (amended part).  In every completed run of the content pipeline, the
event trace consists of all the run's writes followed by all the run's
deletions: once the first deletion occurs, no further write occurs
(rendering completes before pruning starts). -/
theorem rendering_precedes_pruning :
    ∀ (db : List PyObj) (mT cT tT : String) (fs0 fs' : FsNode) (tr : List Event),
      Content.main db mT cT tT fs0 = Content.RunOutcome.done fs' tr →
      ((tr.dropWhile isWriteEv).all isDeleteEv) = true := by
  intro db mT cT tT fs0 fs' tr hrun
  unfold Content.main at hrun
  cases hc : Content.collect_entries db with
  | error e => rw [hc] at hrun; exact Content.RunOutcome.noConfusion hrun
  | ok entries =>
    rw [hc] at hrun
    dsimp only at hrun
    by_cases he : entries.isEmpty
    · rw [if_pos he] at hrun
      cases hrun
      rfl
    · rw [if_neg he] at hrun
      cases hg : Content.generate_pages entries mT cT tT fs0 with
      | none => rw [hg] at hrun; exact Content.RunOutcome.noConfusion hrun
      | some s =>
        rw [hg] at hrun
        cases hrun
        show ((((s.trace ++ (Content.cleanup_html_content_files s.fs s.expected).2)
          ++ (Content.cleanup_orphan_content_folders
            (Content.cleanup_html_content_files s.fs s.expected).1
            (Content.activeTopicSlugsOf entries) (Content.activeCatsOf entries)).2
          ).dropWhile isWriteEv).all isDeleteEv) = true
        rw [List.append_assoc,
          dropWhile_isWrite_append _ _ (generate_pages_inv _ _ _ _ _ _ hg).2]
        refine all_delete_dropWhile _ ?_
        rw [List.all_append, cleanup_html_content_files_all_delete,
          cleanup_orphan_content_folders_all_delete]
        rfl

set_option maxRecDepth 10000 in
/-- Witness for C4's amended content-pipeline part: the concrete run from a
tree with a stale topic has a writes-then-deletes trace. -/
theorem rendering_precedes_pruning_witness :
    (((traceOfRun (Content.main exampleDb "M" "C" "T" exampleStartFs)).dropWhile
      isWriteEv).all isDeleteEv) = true :=
  rendering_precedes_pruning exampleDb "M" "C" "T" exampleStartFs
    (fsOfRun (Content.main exampleDb "M" "C" "T" exampleStartFs))
    (traceOfRun (Content.main exampleDb "M" "C" "T" exampleStartFs)) rfl

set_option maxRecDepth 10000 in
/-- C4 (counterexample).  In the dataset pipeline the per-category
`cleanup_orphan_files` call runs inside the render loop: in this concrete
`process_table` run the deletion of `t/c1/orphan.json` happens before the
writes for category `c2`, so the run's trace is not
writes-followed-by-deletes — deletions do start before all rendering and
writing of the run completes. -/
theorem rendering_precedes_pruning_counterexample :
    dsCexTrace =
      [Event.write ["t.json"], Event.write ["t", "c1", "a.json"],
       Event.write ["t", "c1.json"], Event.delete ["t", "c1", "orphan.json"],
       Event.write ["t", "c2", "b.json"], Event.write ["t", "c2.json"]]
    ∧ ((dsCexTrace.dropWhile isWriteEv).all isDeleteEv) = false :=
  ⟨rfl, by decide⟩

theorem getChild_some_mem :
    ∀ (cs : List (String × FsNode)) (t : String) (x : FsNode),
      getChild cs t = some x → (t, x) ∈ cs := by
  intro cs
  induction cs with
  | nil => intro t x h; simp [getChild] at h
  | cons hd rest ih =>
    obtain ⟨a, b⟩ := hd
    intro t x h
    by_cases hat : a = t
    · subst hat
      rw [getChild, if_pos rfl] at h
      cases h
      exact List.mem_cons_self _ _
    · rw [getChild, if_neg hat] at h
      exact List.mem_cons_of_mem _ (ih t x h)

theorem isDirAt_updateDirAt_ne (fs : FsNode) (n t : String)
    (g : List (String × FsNode) → List (String × FsNode)) (hne : t ≠ n) :
    isDirAt (updateDirAt fs [n] g) [t] = isDirAt fs [t] := by
  cases fs with
  | file c => rfl
  | dir cs =>
    unfold updateDirAt
    cases hg : getChild cs n with
    | none => rfl
    | some child =>
      show isDirAt (FsNode.dir (setChild cs n (updateDirAt child [] g))) [t] = _
      unfold isDirAt lookupNode
      rw [getChild_setChild_ne _ _ _ _ hne]

theorem cleanup_folders_removes_inactive_topic_dirs :
    ∀ (fs : FsNode) (active : List String) (acbt : List (String × List String))
      (t : String),
      Content.knownBaseNames.contains t = false →
      active.contains t = false →
      isDirAt (Content.cleanup_orphan_content_folders fs active acbt).1 [t] = false := by
  intro fs active acbt t hk ha
  cases fs with
  | file c => rfl
  | dir cs =>
    unfold Content.cleanup_orphan_content_folders
    have hstep : ∀ (st : FsNode × List Event) (a : String), a ∈ active →
        isDirAt st.1 [t] = false →
        isDirAt (Content.cleanupTopicStep acbt st a).1 [t] = false := by
      intro st a hmem hst
      unfold Content.cleanupTopicStep
      cases hl : lookupNode st.1 [a] with
      | none => exact hst
      | some node =>
        cases node with
        | file c => exact hst
        | dir ccs =>
          have hta : t ≠ a := by
            intro h
            subst h
            have h2 : active.contains t = true := List.elem_eq_true_of_mem hmem
            rw [h2] at ha
            exact Bool.noConfusion ha
          show isDirAt (updateDirAt st.1 [a] _) [t] = false
          rw [isDirAt_updateDirAt_ne _ _ _ _ hta]
          exact hst
    refine foldl_inv (fun (st : FsNode × List Event) => isDirAt st.1 [t] = false)
      _ active hstep _ ?_
    show isDirAt (FsNode.dir (cs.filter (fun p => !(Content.orphanBaseChild active p)))) [t]
      = false
    unfold isDirAt lookupNode
    cases hg : getChild (cs.filter (fun p => !(Content.orphanBaseChild active p))) t with
    | none => rfl
    | some child =>
      cases child with
      | file c => rfl
      | dir d =>
        exfalso
        have hmem := getChild_some_mem _ _ _ hg
        have hpred := (List.mem_filter.mp hmem).2
        simp only [Content.orphanBaseChild, Bool.not_eq_true'] at hpred
        rw [hk, ha] at hpred
        simp at hpred

/-- C1 (amended).  For every completed run of the content pipeline whose
normalised entry list is non-empty, every topic slug that is neither one
of the reserved base names nor active in the run's entries has no
directory at the base level after reconciliation (the orphan-folder
cleanup removed it together with all its descendants, or it never
existed).  With an empty entry list the run exits before reconciliation
and deletes nothing — see the counterexample. -/
theorem shrink_on_nonempty_runs :
    ∀ (db : List PyObj) (mT cT tT : String) (fs0 : FsNode) (entries : List Record)
      (fs' : FsNode) (tr : List Event) (t : String),
      Content.collect_entries db = Except.ok entries →
      entries.isEmpty = false →
      Content.main db mT cT tT fs0 = Content.RunOutcome.done fs' tr →
      Content.knownBaseNames.contains t = false →
      (Content.activeTopicSlugsOf entries).contains t = false →
      isDirAt fs' [t] = false := by
  intro db mT cT tT fs0 entries fs' tr t hc he hrun hk ha
  unfold Content.main at hrun
  rw [hc] at hrun
  dsimp only at hrun
  simp only [he, Bool.false_eq_true, if_false] at hrun
  cases hg : Content.generate_pages entries mT cT tT fs0 with
  | none => rw [hg] at hrun; exact Content.RunOutcome.noConfusion hrun
  | some s =>
    rw [hg] at hrun
    cases hrun
    exact cleanup_folders_removes_inactive_topic_dirs _ _ _ t hk ha

set_option maxRecDepth 10000 in
/-- Witness for C1's amended claim: a stale topic folder present at the
start is gone after a completed run with one (unrelated) entry. -/
theorem shrink_on_nonempty_runs_witness :
    isDirAt (fsOfRun (Content.main exampleDb "M" "C" "T" exampleStartFs))
      ["stale-topic"] = false :=
  shrink_on_nonempty_runs exampleDb "M" "C" "T" exampleStartFs exampleEntries
    (fsOfRun (Content.main exampleDb "M" "C" "T" exampleStartFs))
    (traceOfRun (Content.main exampleDb "M" "C" "T" exampleStartFs))
    "stale-topic" rfl (by decide) rfl (by decide) (by decide)

set_option maxRecDepth 10000 in
/-- C1 (counterexample).  A second run whose input list is empty completes
(`main` returns after "No entries to process") without deleting anything:
the `comedy-hour` directory created by the baseline run still exists,
contradicting the claim for the empty-input case. -/
theorem shrink_empty_input_counterexample :
    Content.main [] "M" "C" "T" baselineFs = Content.RunOutcome.done baselineFs []
    ∧ isDirAt baselineFs ["comedy-hour"] = true :=
  ⟨rfl, by decide⟩

theorem charListLe_trans : ∀ (a b c : List Char),
    charListLe a b = true → charListLe b c = true → charListLe a c = true := by
  intro a
  induction a with
  | nil => intro b c _ _; rfl
  | cons x xs ih =>
    intro b c hab hbc
    cases b with
    | nil => exact Bool.noConfusion hab
    | cons y ys =>
      cases c with
      | nil => exact Bool.noConfusion hbc
      | cons z zs =>
        by_cases hxy : x.toNat < y.toNat
        · by_cases hyz : y.toNat < z.toNat
          · have hxz : x.toNat < z.toNat := Nat.lt_trans hxy hyz
            simp [charListLe, hxz]
          · by_cases hzy : z.toNat < y.toNat
            · simp [charListLe, hyz, hzy] at hbc
            · have hxz : x.toNat < z.toNat := by omega
              simp [charListLe, hxz]
        · by_cases hyx : y.toNat < x.toNat
          · simp [charListLe, hxy, hyx] at hab
          · by_cases hyz : y.toNat < z.toNat
            · have hxz : x.toNat < z.toNat := by omega
              simp [charListLe, hxz]
            · by_cases hzy : z.toNat < y.toNat
              · simp [charListLe, hyz, hzy] at hbc
              · have hxz : ¬(x.toNat < z.toNat) := by omega
                have hzx : ¬(z.toNat < x.toNat) := by omega
                simp [charListLe, hxy, hyx] at hab
                simp [charListLe, hyz, hzy] at hbc
                simp [charListLe, hxz, hzx]
                exact ih ys zs hab hbc

theorem charListLe_total : ∀ (a b : List Char),
    charListLe a b = false → charListLe b a = true := by
  intro a
  induction a with
  | nil => intro b h; exact Bool.noConfusion h
  | cons x xs ih =>
    intro b h
    cases b with
    | nil => rfl
    | cons y ys =>
      by_cases hxy : x.toNat < y.toNat
      · simp [charListLe, hxy] at h
      · by_cases hyx : y.toNat < x.toNat
        · simp [charListLe, hyx]
        · simp [charListLe, hxy, hyx] at h
          simp [charListLe, hxy, hyx]
          exact ih ys h

theorem mem_insSorted {α : Type} (le : α → α → Bool) (x : α) :
    ∀ (l : List α) (a : α), a ∈ insSorted le x l ↔ (a = x ∨ a ∈ l) := by
  intro l
  induction l with
  | nil => intro a; simp [insSorted]
  | cons y ys ih =>
    intro a
    unfold insSorted
    by_cases h : le y x
    · rw [if_pos h]
      simp [ih]
      tauto
    · rw [if_neg h]
      simp

theorem pairwise_insSorted {α : Type} (le : α → α → Bool)
    (htrans : ∀ a b c, le a b = true → le b c = true → le a c = true)
    (htot : ∀ a b, le a b = false → le b a = true) (x : α) :
    ∀ (l : List α), l.Pairwise (fun a b => le a b = true) →
      (insSorted le x l).Pairwise (fun a b => le a b = true) := by
  intro l
  induction l with
  | nil => intro _; simp [insSorted]
  | cons y ys ih =>
    intro hp
    rw [List.pairwise_cons] at hp
    unfold insSorted
    by_cases h : le y x
    · rw [if_pos h, List.pairwise_cons]
      constructor
      · intro b hb
        rcases (mem_insSorted le x ys b).mp hb with rfl | hbys
        · exact h
        · exact hp.1 b hbys
      · exact ih hp.2
    · have hxy : le x y = true := htot y x (Bool.of_not_eq_true h)
      rw [if_neg h, List.pairwise_cons]
      constructor
      · intro b hb
        rcases List.mem_cons.mp hb with rfl | hbys
        · exact hxy
        · exact htrans x y b hxy (hp.1 b hbys)
      · rw [List.pairwise_cons]
        exact ⟨hp.1, hp.2⟩

theorem pairwise_pySortBy {α : Type} (le : α → α → Bool)
    (htrans : ∀ a b c, le a b = true → le b c = true → le a c = true)
    (htot : ∀ a b, le a b = false → le b a = true) (l : List α) :
    (pySortBy le l).Pairwise (fun a b => le a b = true) := by
  unfold pySortBy
  exact foldl_inv (fun (acc : List α) => acc.Pairwise (fun a b => le a b = true))
    _ l (fun s a _ hs => pairwise_insSorted le htrans htot a s hs) [] (by simp)

theorem mem_pySortBy {α : Type} (le : α → α → Bool) (l : List α) (a : α)
    (h : a ∈ pySortBy le l) : a ∈ l := by
  unfold pySortBy at h
  refine foldl_inv (fun (acc : List α) => ∀ x ∈ acc, x ∈ l)
    (fun acc x => insSorted le x acc) l ?_ [] (by simp) a h
  intro s e hel hs x hx
  rcases (mem_insSorted le e s x).mp hx with rfl | hxs
  · exact hel
  · exact hs x hxs

theorem mapExcept_zip_keys {f : Record → Except String String} :
    ∀ (l : List Record) (ks : List String), mapExcept f l = Except.ok ks →
      ∀ p ∈ ks.zip l, f p.2 = Except.ok p.1 := by
  intro l
  induction l with
  | nil =>
    intro ks h p hp
    unfold mapExcept at h
    cases h
    simp at hp
  | cons x xs ih =>
    intro ks h p hp
    unfold mapExcept at h
    cases hfx : f x with
    | error e => rw [hfx] at h; exact Except.noConfusion h
    | ok y =>
      rw [hfx] at h
      cases hrest : mapExcept f xs with
      | error e => rw [hrest] at h; exact Except.noConfusion h
      | ok ys =>
        rw [hrest] at h
        have h2 : Except.ok (y :: ys) = Except.ok ks := h
        cases h2
        rcases List.mem_cons.mp hp with rfl | hmem
        · exact hfx
        · exact ih ys hrest p hmem

theorem pySortByKeyE_sorted (keyf : Record → Except String String)
    (keyD : Record → String)
    (hagree : ∀ e k, keyf e = Except.ok k → keyD e = k) :
    ∀ (l sorted : List Record), pySortByKeyE keyf l = Except.ok sorted →
      sorted.Pairwise (fun a b => strLe (keyD a) (keyD b) = true) := by
  intro l sorted hok
  unfold pySortByKeyE at hok
  cases hks : mapExcept keyf l with
  | error e => rw [hks] at hok; exact Except.noConfusion hok
  | ok ks =>
    rw [hks] at hok
    have hok2 : Except.ok ((pySortBy (fun (a b : String × Record) => strLe a.1 b.1)
        (ks.zip l)).map (fun p => p.2)) = Except.ok sorted := hok
    cases hok2
    have htrans : ∀ (a b c : String × Record),
        strLe a.1 b.1 = true → strLe b.1 c.1 = true → strLe a.1 c.1 = true :=
      fun a b c hab hbc => charListLe_trans _ _ _ hab hbc
    have htot : ∀ (a b : String × Record), strLe a.1 b.1 = false → strLe b.1 a.1 = true :=
      fun a b hab => charListLe_total _ _ hab
    have h1 := pairwise_pySortBy (fun (a b : String × Record) => strLe a.1 b.1)
      (fun a b c => htrans a b c) (fun a b => htot a b) (ks.zip l)
    have h2 : ∀ p ∈ pySortBy (fun (a b : String × Record) => strLe a.1 b.1) (ks.zip l),
        keyD p.2 = p.1 := by
      intro p hp
      exact hagree p.2 p.1 (mapExcept_zip_keys l ks hks p (mem_pySortBy _ _ _ hp))
    rw [List.pairwise_map]
    exact h1.imp_of_mem (fun ha hb hr => by rw [h2 _ ha, h2 _ hb]; exact hr)

theorem sortKeyE_agree (e : Record) (k : String)
    (h : Content.sortKeyE e = Except.ok k) : nameKeyD e = k := by
  unfold Content.sortKeyE at h
  unfold nameKeyD
  cases hr : rget e "name" with
  | none => rw [hr] at h; cases h; rfl
  | some v =>
    rw [hr] at h
    cases v with
    | str s => cases h; rfl
    | none => exact Except.noConfusion h
    | int n => exact Except.noConfusion h
    | bool b => exact Except.noConfusion h

theorem dsSortKeyE_agree (e : Record) (k : String)
    (h : Datasets.dsSortKeyE e = Except.ok k) : dsNameKeyD e = k := by
  unfold Datasets.dsSortKeyE at h
  unfold dsNameKeyD
  cases hr : rget e "name" with
  | none => rw [hr] at h; cases h; rfl
  | some v =>
    rw [hr] at h
    cases v with
    | str s => cases h; rfl
    | none => exact Except.noConfusion h
    | int n => exact Except.noConfusion h
    | bool b => exact Except.noConfusion h

theorem cGet_addCat (cs : List (Value × List Record)) (c c0 : Value) (e : Record) :
    cGet (addCat cs c e) c0 = cGet cs c0 ++ (if c = c0 then [e] else []) := by
  induction cs with
  | nil =>
    by_cases h : c = c0
    · subst h; simp [addCat, cGet]
    · simp [addCat, cGet, h, fun hh => h hh]
  | cons hd rest ih =>
    obtain ⟨c', l⟩ := hd
    by_cases hc : c' = c
    · subst hc
      by_cases h0 : c' = c0
      · subst h0; simp [addCat, cGet]
      · simp [addCat, cGet, h0]
    · by_cases h0 : c' = c0
      · subst h0
        have hne : ¬(c = c') := fun h => hc h.symm
        simp [addCat, cGet, hc, hne]
      · simp [addCat, cGet, hc, h0, ih]

theorem tGet_addTopic (g : List (Value × List (Value × List Record))) (t c : Value)
    (e : Record) (t0 : Value) :
    tGet (addTopic g t c e) t0 =
      if t = t0 then addCat (tGet g t0) c e else tGet g t0 := by
  induction g with
  | nil =>
    by_cases h : t = t0
    · subst h; simp [addTopic, tGet]
    · simp [addTopic, tGet, h]
  | cons hd rest ih =>
    obtain ⟨t', cs⟩ := hd
    by_cases ht : t' = t
    · subst ht
      by_cases h0 : t' = t0
      · subst h0; simp [addTopic, tGet]
      · simp [addTopic, tGet, h0]
    · by_cases h0 : t' = t0
      · subst h0
        have hne : ¬(t = t') := fun h => ht h.symm
        simp [addTopic, tGet, ht, hne]
      · simp [addTopic, tGet, ht, h0, ih]

theorem gGet_addTopic (g : List (Value × List (Value × List Record))) (e : Record)
    (t c : Value) :
    gGet (addTopic g (Content.topicOf e) (Content.catOf e) e) t c =
      gGet g t c ++
        (if Content.topicOf e = t ∧ Content.catOf e = c then [e] else []) := by
  unfold gGet
  rw [tGet_addTopic]
  by_cases ht : Content.topicOf e = t
  · rw [if_pos ht, cGet_addCat]
    by_cases hc : Content.catOf e = c
    · simp [ht, hc]
    · simp [ht, hc]
  · rw [if_neg ht]
    simp [ht]

theorem gGet_foldl_group :
    ∀ (entries : List Record) (acc : List (Value × List (Value × List Record)))
      (t c : Value),
      gGet (entries.foldl (fun a e => addTopic a (Content.topicOf e) (Content.catOf e) e)
        acc) t c =
      gGet acc t c ++ entries.filter
        (fun e => decide (Content.topicOf e = t) && decide (Content.catOf e = c)) := by
  intro entries
  induction entries with
  | nil => intro acc t c; simp
  | cons e es ih =>
    intro acc t c
    rw [List.foldl_cons, ih, gGet_addTopic, List.filter_cons]
    by_cases hp : Content.topicOf e = t ∧ Content.catOf e = c
    · rw [if_pos hp]
      simp [hp.1, hp.2]
    · rw [if_neg hp]
      have hb : (decide (Content.topicOf e = t) && decide (Content.catOf e = c)) = false := by
        rcases Decidable.not_and_iff_or_not.mp hp with h | h <;> simp [h]
      simp [hb]

theorem gGet_groupEntries (entries : List Record) (t c : Value) :
    gGet (Content.groupEntries entries) t c =
      entries.filter
        (fun e => decide (Content.topicOf e = t) && decide (Content.catOf e = c)) := by
  unfold Content.groupEntries
  rw [gGet_foldl_group]
  rfl

/-- C7.  Leaf entry lists are sorted by name case-insensitively before
rendering: for every successful `collect_entries` batch, every
`(topic, category)` leaf group that `generate_pages` builds from it is
sorted ascending by the lower-cased name key; and in the dataset pipeline
every per-category entry list produced by the sort that precedes the
category writes is likewise sorted by its lower-cased name key. -/
theorem leaf_groups_sorted_by_name :
    (∀ (db : List PyObj) (entries : List Record) (t c : Value),
      Content.collect_entries db = Except.ok entries →
      (gGet (Content.groupEntries entries) t c).Pairwise
        (fun a b => strLe (nameKeyD a) (nameKeyD b) = true))
    ∧ (∀ (l sorted : List Record),
      pySortByKeyE Datasets.dsSortKeyE l = Except.ok sorted →
      sorted.Pairwise (fun a b => strLe (dsNameKeyD a) (dsNameKeyD b) = true)) := by
  constructor
  · intro db entries t c hok
    unfold Content.collect_entries at hok
    have hsorted := pySortByKeyE_sorted Content.sortKeyE nameKeyD sortKeyE_agree _ _ hok
    rw [gGet_groupEntries]
    exact List.Pairwise.sublist (List.filter_sublist _) hsorted
  · intro l sorted hok
    exact pySortByKeyE_sorted Datasets.dsSortKeyE dsNameKeyD dsSortKeyE_agree _ _ hok

/-- Witness for C7: the concrete example group, and a concrete two-record
dataset sort. -/
theorem leaf_groups_sorted_by_name_witness :
    (gGet (Content.groupEntries exampleEntries) (Value.str "Comedy Hour")
      (Value.str "Skits")).Pairwise
      (fun a b => strLe (nameKeyD a) (nameKeyD b) = true)
    ∧ dsSortExample.Pairwise
      (fun a b => strLe (dsNameKeyD a) (dsNameKeyD b) = true) :=
  ⟨leaf_groups_sorted_by_name.1 exampleDb exampleEntries (Value.str "Comedy Hour")
      (Value.str "Skits") rfl,
   leaf_groups_sorted_by_name.2 dsSortExampleInput dsSortExample rfl⟩

/-- C2 (code bug).  Evaluating `collect_entries` at the failing input
`[{"name": ""}]`: because the `**entry` spread re-applies the raw binding
after the normalised fields, the present-but-empty `name` survives as `""`
instead of the sentinel `"unknown-name"` required by the claim (the
absent `topic`/`category` fields do get their sentinels). -/
theorem collect_entries_keeps_raw_empty_name :
    Content.collect_entries [PyObj.dict [("name", Value.str "")]] =
      Except.ok [[("name", Value.str ""), ("topic", Value.str "unknown-topic"),
        ("category", Value.str "unknown-category")]] := rfl

/-- C8 (code bug).  Evaluating `collect_entries` at the failing input
`[{"name": True}]`: the raw boolean survives the `**entry` spread, so the
sort key `e.get("name", "unknown-name").lower()` raises `AttributeError`
and the whole batch aborts, contradicting the claim that normalisation of
a batch never raises. -/
theorem collect_entries_raises_on_bool_name :
    Content.collect_entries [PyObj.dict [("name", Value.bool true)]] =
      Except.error "AttributeError" := rfl

end Towaf
